import Mathlib

/-!
Shallow embedding of the `tiny_skia_display` crate (src/src/lib.rs and
src/src/font/mod.rs) for checking its natural-language specification.

Conventions of the embedding:
* every coordinate in the crate originates from an `i32` or `u32` and is cast
  to `f32` before reaching tiny-skia; those casts are exact for the magnitudes
  used here, so coordinates are modelled as `ℤ` (and `ℚ` inside paths, where
  glyph outlines contribute fractional values);
* the pixel buffer holds one `Rgba8` entry per pixel, standing for the four
  bytes of the real row-major `width*height*4` byte buffer;
* tiny-skia itself is an external dependency; its painting entry points
  (`fill_rect`, `fill_path`, `stroke_path`) are modelled from their documented
  behaviour at whole-pixel granularity: a pixel is painted when it is covered,
  and `fill_path`/`stroke_path` report `none` ("nothing to fill") when no pixel
  of the pixmap receives coverage.  Curved segments are modelled by their
  chords; no theorem below evaluates coverage of a curved contour;
* Rust panics are modelled by an `Option` result (`none` = panic) on the two
  operations that can abort: `flip` (slice-length mismatch in
  `copy_from_slice`) and `draw_whitespace` (`todo!()`).
-/

namespace Tsd

/-- A paint/pixel byte quadruple, in buffer order (the four arguments of
tiny-skia's `set_color_rgba8`). -/
structure Rgba8 where
  r : ℕ
  g : ℕ
  b : ℕ
  a : ℕ
deriving DecidableEq

/-- embedded-graphics `Rgb888` color: three 8-bit channels. -/
structure Rgb888 where
  r : ℕ
  g : ℕ
  b : ℕ
deriving DecidableEq

/-- embedded-graphics `Point` (two `i32`). -/
structure Point where
  x : ℤ
  y : ℤ
deriving DecidableEq

/-- embedded-graphics `Size` (two `u32`). -/
structure Size where
  width : ℕ
  height : ℕ
deriving DecidableEq

/-- embedded-graphics `primitives::Line` (`end` is a reserved word; `stop`). -/
structure Line where
  start : Point
  stop : Point
deriving DecidableEq

/-- embedded-graphics 0.6 `primitives::Rectangle`: two corner points. -/
structure Rectangle where
  top_left : Point
  bottom_right : Point
deriving DecidableEq

/-- embedded-graphics `primitives::Circle`: center and `u32` radius. -/
structure Circle where
  center : Point
  radius : ℕ
deriving DecidableEq

/-- embedded-graphics `PrimitiveStyle`: optional fill and stroke colors and a
`u32` stroke width. -/
structure PrimitiveStyle where
  fill_color : Option Rgb888
  stroke_color : Option Rgb888
  stroke_width : ℕ
deriving DecidableEq

/-- embedded-graphics `Styled`: a primitive paired with a style. -/
structure Styled (P : Type) where
  primitive : P
  style : PrimitiveStyle
deriving DecidableEq

/-- tiny-skia `Rect`, given by `from_xywh` data.  All rects built by this crate
have integer coordinates.  Per the tiny-skia documentation a `Rect` can have
zero width and/or height, but not a negative one. -/
structure SkRect where
  x : ℤ
  y : ℤ
  w : ℤ
  h : ℤ
deriving DecidableEq

/-- tiny-skia `Rect::from_xywh`: `none` when the width or height is negative
(non-finiteness cannot arise from integer inputs). -/
def SkRect.from_xywh (x y w h : ℤ) : Option SkRect :=
  if 0 ≤ w ∧ 0 ≤ h then some ⟨x, y, w, h⟩ else none

/-- A tiny-skia path segment. -/
inductive PathSeg
  | moveTo (x y : ℚ)
  | lineTo (x y : ℚ)
  | quadTo (cx cy x y : ℚ)
  | cubicTo (c1x c1y c2x c2y x y : ℚ)
  | close
deriving DecidableEq

/-- A finished tiny-skia `Path`: the recorded segment sequence. -/
structure Path where
  segs : List PathSeg
deriving DecidableEq

/-- tiny-skia `PathBuilder`: the segments recorded so far. -/
abbrev PathBuilder := List PathSeg

/-- tiny-skia `PathBuilder::finish`: `none` for an empty builder. -/
def PathBuilder.finish (b : PathBuilder) : Option Path :=
  if b.isEmpty then none else some ⟨b⟩

/-- tiny-skia `PathBuilder::from_rect`: move to the top-left corner then walk
the four sides and close. -/
def PathBuilder.from_rect (r : SkRect) : Path :=
  ⟨[ .moveTo r.x r.y,
     .lineTo (r.x + r.w) r.y,
     .lineTo (r.x + r.w) (r.y + r.h),
     .lineTo r.x (r.y + r.h),
     .close ]⟩

/-- tiny-skia `PathBuilder::from_circle`: `none` unless the radius is positive;
otherwise a closed oval contour (tiny-skia emits four conic arcs; the model
records four quadratic arcs — no theorem evaluates coverage of this contour). -/
def PathBuilder.from_circle (cx cy r : ℚ) : Option Path :=
  if r ≤ 0 then none
  else some ⟨[ .moveTo (cx + r) cy,
               .quadTo (cx + r) (cy + r) cx (cy + r),
               .quadTo (cx - r) (cy + r) (cx - r) cy,
               .quadTo (cx - r) (cy - r) cx (cy - r),
               .quadTo (cx + r) (cy - r) (cx + r) cy,
               .close ]⟩

/-! ### Rasterization model

Painting is modelled per pixel.  The pixel with integer coordinates `(px, py)`
occupies the unit square `[px, px+1] × [py, py+1]` and has center
`(px + 1/2, py + 1/2)`. -/

/-- Full coverage of a pixel by an axis-aligned rect: the pixel's unit square
lies inside the rect. -/
def SkRect.covers (r : SkRect) (px py : ℤ) : Bool :=
  decide (r.x ≤ px ∧ px + 1 ≤ r.x + r.w ∧ r.y ≤ py ∧ py + 1 ≤ r.y + r.h)

/-- The vertex chains of a path: each `moveTo` starts a new contour, curve
segments contribute their endpoints (chord model), `close` ends a contour.
Every contour is closed implicitly when filled, per the winding fill rule. -/
def Path.contours (p : Path) : List (List (ℚ × ℚ)) :=
  let step : List (List (ℚ × ℚ)) × List (ℚ × ℚ) → PathSeg →
      List (List (ℚ × ℚ)) × List (ℚ × ℚ) :=
    fun acc seg =>
      match seg with
      | .moveTo x y => (acc.1 ++ [acc.2], [(x, y)])
      | .lineTo x y => (acc.1, acc.2 ++ [(x, y)])
      | .quadTo _ _ x y => (acc.1, acc.2 ++ [(x, y)])
      | .cubicTo _ _ _ _ x y => (acc.1, acc.2 ++ [(x, y)])
      | .close => (acc.1 ++ [acc.2], [])
  let res := p.segs.foldl step ([], [])
  (res.1 ++ [res.2]).filter (fun c => !c.isEmpty)

/-- The closed edge list of one contour (last vertex joined back to first). -/
def contourEdges (c : List (ℚ × ℚ)) : List ((ℚ × ℚ) × (ℚ × ℚ)) :=
  match c with
  | [] => []
  | v :: _ => c.zip (c.drop 1 ++ [v])

/-- Signed crossing contribution of edge `(a, b)` to the winding number of the
horizontal ray from `q`: the standard non-zero winding rule accumulator. -/
def edgeWinding (q : ℚ × ℚ) (e : (ℚ × ℚ) × (ℚ × ℚ)) : ℤ :=
  let a := e.1
  let b := e.2
  let cross := (b.1 - a.1) * (q.2 - a.2) - (b.2 - a.2) * (q.1 - a.1)
  if a.2 ≤ q.2 ∧ q.2 < b.2 ∧ 0 < cross then 1
  else if b.2 ≤ q.2 ∧ q.2 < a.2 ∧ cross < 0 then -1
  else 0

/-- Winding number of a point with respect to all contours of a path. -/
def Path.winding (p : Path) (q : ℚ × ℚ) : ℤ :=
  (p.contours.map (fun c => ((contourEdges c).map (edgeWinding q)).sum)).sum

/-- Winding-rule fill coverage of a pixel: non-zero winding number at the
pixel center. -/
def Path.fillCovers (p : Path) (px py : ℤ) : Bool :=
  decide (p.winding ((px : ℚ) + 1/2, (py : ℚ) + 1/2) ≠ 0)

/-- Squared Euclidean distance from `q` to the segment `[a, b]`. -/
def distSqToSegment (a b q : ℚ × ℚ) : ℚ :=
  let dx := b.1 - a.1
  let dy := b.2 - a.2
  let len2 := dx * dx + dy * dy
  let t0 := ((q.1 - a.1) * dx + (q.2 - a.2) * dy) / len2
  let t := max 0 (min 1 t0)
  let ex := q.1 - (a.1 + t * dx)
  let ey := q.2 - (a.2 + t * dy)
  ex * ex + ey * ey

/-- The non-degenerate edges of a path's contours.  Zero-length segments are
dropped, matching the stroker's treatment under the default butt line cap
(a fully degenerate contour strokes nothing). -/
def Path.strokeEdges (p : Path) : List ((ℚ × ℚ) × (ℚ × ℚ)) :=
  (p.contours.map contourEdges).flatten.filter (fun e => e.1 ≠ e.2)

/-- Stroke coverage of a pixel: the whole unit square of the pixel lies inside
the constant-width band of one edge (all four corners within `width/2`; the
per-edge band is convex, so this puts the square in the band).  Cap and join
fine structure at contour corners is not modelled; no theorem evaluates a
pixel at a corner. -/
def Path.strokeCovers (p : Path) (width : ℚ) (px py : ℤ) : Bool :=
  p.strokeEdges.any fun e =>
    [((px : ℚ), (py : ℚ)), ((px : ℚ) + 1, (py : ℚ)),
     ((px : ℚ), (py : ℚ) + 1), ((px : ℚ) + 1, (py : ℚ) + 1)].all fun q =>
      decide (distSqToSegment e.1 e.2 q * 4 ≤ width * width)

/-! ### Pixmap -/

/-- tiny-skia `Pixmap`: dimensions plus the pixel buffer (row-major, one
`Rgba8` per pixel, standing for 4 bytes each). -/
structure Pixmap where
  width : ℕ
  height : ℕ
  data : List Rgba8
deriving DecidableEq

/-- tiny-skia `Pixmap::new`: `none` for zero dimensions; the fresh buffer is
transparent black (all bytes zero). -/
def Pixmap.new (width height : ℕ) : Option Pixmap :=
  if width = 0 ∨ height = 0 then none
  else some ⟨width, height, List.replicate (width * height) ⟨0, 0, 0, 0⟩⟩

/-- Overwrite the entries at covered indices with `c` (indices counted from
`i`). -/
def paintList (cov : ℕ → Bool) (c : Rgba8) : List Rgba8 → ℕ → List Rgba8
  | [], _ => []
  | x :: xs, i => (if cov i then c else x) :: paintList cov c xs (i + 1)

/-- Paint every covered pixel of the pixmap with `c` (row-major indexing:
index `i` is the pixel `(i % width, i / width)`). -/
def Pixmap.paintWhere (pm : Pixmap) (cov : ℤ → ℤ → Bool) (c : Rgba8) : Pixmap :=
  { pm with
    data := paintList (fun i => cov ((i % pm.width : ℕ) : ℤ) ((i / pm.width : ℕ) : ℤ)) c pm.data 0 }

/-- tiny-skia `Pixmap::fill_rect` (identity transform, no clip mask): paints
the pixels fully covered by the rect; pixels outside the pixmap do not exist
in the buffer, which realises the clipping to the canvas bounds. -/
def Pixmap.fill_rect (pm : Pixmap) (r : SkRect) (paint : Rgba8) : Pixmap :=
  pm.paintWhere r.covers paint

/-- tiny-skia `Pixmap::fill_path` (winding fill rule, identity transform, no
clip mask).  Returns the painted pixmap together with the status tiny-skia
reports: `none` when there is nothing to fill (no pixel of the pixmap receives
coverage). -/
def Pixmap.fill_path (pm : Pixmap) (p : Path) (paint : Rgba8) : Pixmap × Option Unit :=
  let painted := pm.paintWhere p.fillCovers paint
  let status :=
    if (List.range pm.data.length).any
        (fun i => p.fillCovers ((i % pm.width : ℕ) : ℤ) ((i / pm.width : ℕ) : ℤ))
    then some () else none
  (painted, status)

/-- tiny-skia `Pixmap::stroke_path` (identity transform, no clip mask, stroke
with the given width and otherwise `Stroke::default()`: butt caps, miter
joins).  Returns the painted pixmap and the reported status: `none` when the
width is not positive or nothing is painted. -/
def Pixmap.stroke_path (pm : Pixmap) (p : Path) (paint : Rgba8) (width : ℚ) :
    Pixmap × Option Unit :=
  if width ≤ 0 then (pm, none)
  else
    let painted := pm.paintWhere (p.strokeCovers width) paint
    let status :=
      if (List.range pm.data.length).any
          (fun i => p.strokeCovers width ((i % pm.width : ℕ) : ℤ) ((i / pm.width : ℕ) : ℤ))
      then some () else none
    (painted, status)

/-! ### Color conversion (src/src/lib.rs, `rgba` and `convert_color_to_paint`) -/

/-- `rgba` as compiled for a native target (`cfg(not(target_arch = "wasm32"))`):
`(color.b(), color.g(), color.r(), 255)`. -/
def rgba (color : Rgb888) : Rgba8 :=
  ⟨color.b, color.g, color.r, 255⟩

/-- `rgba` as compiled for the WASM target (`cfg(target_arch = "wasm32")`):
`(color.r(), color.g(), color.b(), 255)`. -/
def rgbaWasm (color : Rgb888) : Rgba8 :=
  ⟨color.r, color.g, color.b, 255⟩

/-- `convert_color_to_paint`: builds the paint from `rgba` (the model carries
the color quadruple; `anti_alias = true` is a constant of the source). -/
def convert_color_to_paint (color : Rgb888) : Rgba8 :=
  rgba color

/-! ### The display (src/src/lib.rs) -/

/-- `TinySkiaDisplay`: the pixmap and the stored size. -/
structure TinySkiaDisplay where
  pix_map : Pixmap
  size : Size
deriving DecidableEq

/-- `TinySkiaDisplay::new`. -/
def TinySkiaDisplay.new (width height : ℕ) : Except String TinySkiaDisplay :=
  match Pixmap.new width height with
  | none => .error "Cannot create tiny-skia Pixmap"
  | some pm => .ok ⟨pm, ⟨width, height⟩⟩

/-- `TinySkiaDisplay::fill`: fills the path on the pixmap.  The status
returned by tiny-skia's `fill_path` is discarded (the source calls it as a
statement), and the function has no error channel. -/
def TinySkiaDisplay.fill (d : TinySkiaDisplay) (path : Path) (color : Rgb888) :
    TinySkiaDisplay :=
  { d with pix_map := (d.pix_map.fill_path path (convert_color_to_paint color)).1 }

/-- `TinySkiaDisplay::stroke`: strokes the path with `Stroke::default()` at
the given width.  The status returned by tiny-skia's `stroke_path` is
discarded, and the function has no error channel. -/
def TinySkiaDisplay.stroke (d : TinySkiaDisplay) (path : Path) (color : Rgb888)
    (stroke_width : ℕ) : TinySkiaDisplay :=
  { d with
    pix_map :=
      (d.pix_map.stroke_path path (convert_color_to_paint color) (stroke_width : ℚ)).1 }

/-- `TinySkiaDisplay::data`: read-only view of the pixel buffer. -/
def TinySkiaDisplay.data (d : TinySkiaDisplay) : List Rgba8 :=
  d.pix_map.data

/-- `TinySkiaDisplay::flip`: `surface.copy_from_slice(self.pix_map.data_mut())`.
`copy_from_slice` panics when the lengths differ (modelled as `none`);
otherwise the surface becomes a verbatim copy and the display is untouched. -/
def TinySkiaDisplay.flip (d : TinySkiaDisplay) (surface : List Rgba8) :
    Option (TinySkiaDisplay × List Rgba8) :=
  if surface.length = d.pix_map.data.length then some (d, d.pix_map.data) else none

/-! ### Primitive-to-path conversion (src/src/lib.rs) -/

/-- `convert_rect`: derives width/height from the two corners and calls
`Rect::from_xywh`. -/
def convert_rect (rect : Rectangle) : Option SkRect :=
  let width := rect.bottom_right.x - rect.top_left.x
  let height := rect.bottom_right.y - rect.top_left.y
  SkRect.from_xywh rect.top_left.x rect.top_left.y width height

/-- `convert_circle`: the circle's raw values. -/
def convert_circle (circle : Circle) : ℚ × ℚ × ℚ :=
  ((circle.center.x : ℚ), (circle.center.y : ℚ), (circle.radius : ℚ))

/-- `convert_rect_path`. -/
def convert_rect_path (rect : Rectangle) : Except String Path :=
  match convert_rect rect with
  | none => .error "Cannot create tiny-skia rect"
  | some r => .ok (PathBuilder.from_rect r)

/-- `convert_circle_path`. -/
def convert_circle_path (circle : Circle) : Except String Path :=
  let c := convert_circle circle
  match PathBuilder.from_circle c.1 c.2.1 c.2.2 with
  | none => .error "Cannot create tiny-skia circle"
  | some p => .ok p

/-- `convert_line_path`: builds `MoveTo start, LineTo end` and finishes. -/
def convert_line_path (line : Line) : Except String Path :=
  let builder : PathBuilder :=
    [ .moveTo (line.start.x : ℚ) (line.start.y : ℚ),
      .lineTo (line.stop.x : ℚ) (line.stop.y : ℚ) ]
  match builder.finish with
  | none => .error "Cannot create tiny-skia path from line."
  | some p => .ok p

/-! ### DrawTarget implementation (src/src/lib.rs) -/

/-- `draw_pixel`: fills a 1×1 rect at the pixel position; out-of-canvas
positions are clipped away by the rasterizer. -/
def TinySkiaDisplay.draw_pixel (d : TinySkiaDisplay) (pixel : Point × Rgb888) :
    Except String TinySkiaDisplay :=
  match SkRect.from_xywh pixel.1.x pixel.1.y 1 1 with
  | none => .error "Cannot crate tiny skia Rect."
  | some r =>
      .ok { d with pix_map := d.pix_map.fill_rect r (convert_color_to_paint pixel.2) }

/-- `draw_line`: converts the line to a path, then fill pass (if a fill color
is set) followed by stroke pass (if a stroke color is set). -/
def TinySkiaDisplay.draw_line (d : TinySkiaDisplay) (item : Styled Line) :
    Except String TinySkiaDisplay :=
  match convert_line_path item.primitive with
  | .error e => .error e
  | .ok path =>
      let d1 := match item.style.fill_color with
        | some fill_color => d.fill path fill_color
        | none => d
      let d2 := match item.style.stroke_color with
        | some stroke_color => d1.stroke path stroke_color item.style.stroke_width
        | none => d1
      .ok d2

/-- `draw_rectangle`: converts the rect and the rect path (each conversion
failure is an error), then fill pass via `fill_rect` followed by stroke pass
over the rect path. -/
def TinySkiaDisplay.draw_rectangle (d : TinySkiaDisplay) (item : Styled Rectangle) :
    Except String TinySkiaDisplay :=
  match convert_rect item.primitive with
  | none => .error "Cannot create tiny-skia rect."
  | some rect =>
      match convert_rect_path item.primitive with
      | .error e => .error e
      | .ok rect_path =>
          let d1 := match item.style.fill_color with
            | some fill_color =>
                { d with
                  pix_map := d.pix_map.fill_rect rect (convert_color_to_paint fill_color) }
            | none => d
          let d2 := match item.style.stroke_color with
            | some stroke_color => d1.stroke rect_path stroke_color item.style.stroke_width
            | none => d1
          .ok d2

/-- `draw_circle`: converts the circle to a path, then fill pass followed by
stroke pass. -/
def TinySkiaDisplay.draw_circle (d : TinySkiaDisplay) (item : Styled Circle) :
    Except String TinySkiaDisplay :=
  match convert_circle_path item.primitive with
  | .error e => .error e
  | .ok cpath =>
      let d1 := match item.style.fill_color with
        | some fill_color => d.fill cpath fill_color
        | none => d
      let d2 := match item.style.stroke_color with
        | some stroke_color => d1.stroke cpath stroke_color item.style.stroke_width
        | none => d1
      .ok d2

/-! ### Font module (src/src/font/mod.rs)

The rusttype collaborator (font parsing, glyph lookup, metrics) is external
to the repository; the spec treats it as "a capability that yields glyph
outline commands and metrics".  It is modelled as a function from scale and
character to per-glyph data, plus the ascent metric. -/

/-- A glyph outline command as pushed by the font outline source (§4.4: the
glyph source format has move/line/quad callbacks and no close). -/
inductive OutlineCmd
  | move (x y : ℚ)
  | line (x y : ℚ)
  | quad (cx cy x y : ℚ)
deriving DecidableEq

/-- rusttype `HMetrics`. -/
structure HMetrics where
  advance_width : ℚ
deriving DecidableEq

/-- The data of one glyph at a given scale: horizontal metrics, the minimum
corner of its exact bounding box (`none` for whitespace/empty outlines, in
which case `pixel_bounding_box` is `None`), and its outline commands. -/
structure GlyphData where
  h_metrics : HMetrics
  bbox_min : Option (ℚ × ℚ)
  outline : List OutlineCmd
deriving DecidableEq

/-- The rusttype font capability: glyph data per scale and character, and the
ascent vertical metric per scale. -/
structure RFont where
  glyph : ℚ → Char → GlyphData
  ascent : ℚ → ℚ

/-- rusttype `PositionedGlyph`: glyph data plus its layout position. -/
structure PositionedGlyph where
  gd : GlyphData
  pos : ℚ × ℚ
deriving DecidableEq

/-- The caret recursion of rusttype `Font::layout`: each glyph is emitted at
the caret and the caret advances by the glyph's advance width (pair kerning is
not modelled; the spec lists kerning beyond advance summation as a non-goal). -/
def RFont.layoutFrom (f : RFont) (scale : ℚ) : ℚ × ℚ → List Char → List PositionedGlyph
  | _, [] => []
  | caret, c :: cs =>
      let g := f.glyph scale c
      ⟨g, caret⟩ :: f.layoutFrom scale (caret.1 + g.h_metrics.advance_width, caret.2) cs

/-- rusttype `Font::layout(text, scale, offset)`. -/
def RFont.layout (f : RFont) (text : List Char) (scale : ℚ) (offset : ℚ × ℚ) :
    List PositionedGlyph :=
  f.layoutFrom scale offset text

/-- rusttype `PositionedGlyph::pixel_bounding_box`: `None` exactly when the
glyph has no bounding box (whitespace, empty outline); otherwise the integer
minimum corner of the outline's box translated by the glyph position. -/
def PositionedGlyph.pixel_bounding_box (g : PositionedGlyph) : Option (ℤ × ℤ) :=
  g.gd.bbox_min.map fun bm => (⌊g.pos.1 + bm.1⌋, ⌊g.pos.2 + bm.2⌋)

/-- `Font`: the rusttype font plus a base pixel size (`from_bytes` belongs to
the external parser; model fonts are constructed directly). -/
structure Font where
  inner : RFont
  pixel_size : ℕ

/-- `Font::measure_text`: lays the text out at uniform scale `size` with the
ascent offset, and returns `(width, pixel_height)` where the width is the
ceiling of position-plus-advance of the last glyph (`iter().rev().next()`),
`0.0` for no glyphs, and the pixel height is `size.ceil()`. -/
def Font.measure_text (f : Font) (text : List Char) (size : ℚ) : ℤ × ℤ :=
  let scale := size
  let offset : ℚ × ℚ := (0, f.inner.ascent scale)
  let pixel_height := ⌈size⌉
  let glyphs := f.inner.layout text scale offset
  let width :=
    ⌈((glyphs.reverse.head?.map fun g => g.pos.1 + g.gd.h_metrics.advance_width).getD 0)⌉
  (width, pixel_height)

/-- Modelled from the spec: `src/src/font/glyph_tracer.rs` is declared by
`mod glyph_tracer;` but the file is not under `src/`.  Per §4.4 the tracer
holds a path builder and a per-glyph pixel-space origin `position`. -/
structure GlyphTracer where
  path_builder : PathBuilder
  position : ℚ × ℚ

/-- Modelled from the spec (§4.4): `move_to(x, y) → MoveTo(position + (x, y))`. -/
def GlyphTracer.move_to (t : GlyphTracer) (x y : ℚ) : GlyphTracer :=
  { t with path_builder := t.path_builder ++ [.moveTo (t.position.1 + x) (t.position.2 + y)] }

/-- Modelled from the spec (§4.4): `line_to(x, y) → LineTo(position + (x, y))`. -/
def GlyphTracer.line_to (t : GlyphTracer) (x y : ℚ) : GlyphTracer :=
  { t with path_builder := t.path_builder ++ [.lineTo (t.position.1 + x) (t.position.2 + y)] }

/-- Modelled from the spec (§4.4):
`quad_to(cx, cy, x, y) → QuadTo(position + (cx, cy), position + (x, y))`. -/
def GlyphTracer.quad_to (t : GlyphTracer) (cx cy x y : ℚ) : GlyphTracer :=
  { t with
    path_builder :=
      t.path_builder ++
        [.quadTo (t.position.1 + cx) (t.position.2 + cy)
          (t.position.1 + x) (t.position.2 + y)] }

/-- rusttype `PositionedGlyph::build_outline`: replays the glyph's outline
commands into the tracer's callbacks. -/
def PositionedGlyph.build_outline (g : PositionedGlyph) (t : GlyphTracer) : GlyphTracer :=
  g.gd.outline.foldl
    (fun tr cmd =>
      match cmd with
      | .move x y => tr.move_to x y
      | .line x y => tr.line_to x y
      | .quad cx cy x y => tr.quad_to cx cy x y)
    t

/-- e-g-core `DecorationColor`. -/
inductive DecorationColor
  | noColor
  | textColor
  | custom (c : Rgb888)
deriving DecidableEq

/-- The abstract `DrawTarget` that `draw_string` is generic over, modelled as
a pixmap whose `fill_solid` paints the rect clipped to the canvas and never
fails (a failing target would have its error propagated by `?`; the claims
concern the text layout itself). -/
structure EgTarget where
  pm : Pixmap
deriving DecidableEq

/-- e-g-core `DrawTarget::fill_solid` on the model target (the model target
stores the RGB channels directly with full alpha). -/
def EgTarget.fill_solid (t : EgTarget) (top_left : Point) (sz : Size) (color : Rgb888) :
    EgTarget :=
  ⟨t.pm.fill_rect ⟨top_left.x, top_left.y, (sz.width : ℤ), (sz.height : ℤ)⟩
    ⟨color.r, color.g, color.b, 255⟩⟩

/-- `FontTextStyle`. -/
structure FontTextStyle where
  text_color : Option Rgb888
  background_color : Option Rgb888
  underline_color : DecorationColor
  strikethrough_color : DecorationColor
  font_size : ℕ
  font : Font

/-- `FontTextStyle::resolve_decoration_color`. -/
def FontTextStyle.resolve_decoration_color (s : FontTextStyle) :
    DecorationColor → Option Rgb888
  | .noColor => none
  | .textColor => s.text_color
  | .custom c => some c

/-- `FontTextStyle::draw_background`: a zero width is an early no-op; else, if
a background color is set, fill a `width × font_size` rect at `position`. -/
def FontTextStyle.draw_background (s : FontTextStyle) (width : ℕ) (position : Point)
    (target : EgTarget) : EgTarget :=
  if width = 0 then target
  else
    match s.background_color with
    | some background_color =>
        target.fill_solid position ⟨width, s.font_size⟩ background_color
    | none => target

/-- `FontTextStyle::draw_strikethrough`: no zero-width guard; fills a
`width × font_size` rect at `position` when a strikethrough color resolves. -/
def FontTextStyle.draw_strikethrough (s : FontTextStyle) (width : ℕ) (position : Point)
    (target : EgTarget) : EgTarget :=
  match s.resolve_decoration_color s.strikethrough_color with
  | some strikethrough_color =>
      target.fill_solid position ⟨width, s.font_size⟩ strikethrough_color
  | none => target

/-- `FontTextStyle::draw_underline`: same shape as `draw_strikethrough`. -/
def FontTextStyle.draw_underline (s : FontTextStyle) (width : ℕ) (position : Point)
    (target : EgTarget) : EgTarget :=
  match s.resolve_decoration_color s.underline_color with
  | some underline_color =>
      target.fill_solid position ⟨width, s.font_size⟩ underline_color
  | none => target

/-- The observable outcome of `draw_string`: the returned point, the contents
of the glyph tracer's path builder after the loop, the accumulated `width`,
and the target after the decoration fills. -/
structure DrawStringOut where
  next : Point
  path_builder : PathBuilder
  width : ℕ
  target : EgTarget

/-- One iteration of the `draw_string` glyph loop.  A glyph without a pixel
bounding box hits `continue`, skipping the outline trace, the update of `p`
AND the `width +=` accumulation.  For an inked glyph, the tracer origin is the
pixel box corner shifted by the draw position, the outline is traced, and the
width grows by `(g.position().x + advance_width).ceil() as u32` (the `as u32`
cast saturates negative values to zero). -/
def drawStringStep (position : Point) (st : Point × GlyphTracer × ℕ)
    (g : PositionedGlyph) : Point × GlyphTracer × ℕ :=
  match g.pixel_bounding_box with
  | none => st
  | some bb =>
      let gposx := bb.1 + position.x
      let gposy := bb.2 + position.y
      let tracer := { st.2.1 with position := ((gposx : ℚ), (gposy : ℚ)) }
      let tracer := g.build_outline tracer
      (⟨gposx, st.1.y⟩, tracer,
        st.2.2 + (⌈g.pos.1 + g.gd.h_metrics.advance_width⌉).toNat)

/-- `FontTextStyle::draw_string` (the `TextRenderer` impl): lays out the text,
runs the glyph loop, then draws background, strikethrough and underline with
the accumulated width, and returns `p`. -/
def FontTextStyle.draw_string (s : FontTextStyle) (text : List Char) (position : Point)
    (target : EgTarget) : DrawStringOut :=
  let scale := (s.font_size : ℚ)
  let offset : ℚ × ℚ := (0, s.font.inner.ascent scale)
  let glyphs := s.font.inner.layout text scale offset
  let init : Point × GlyphTracer × ℕ := (position, ⟨[], (0, 0)⟩, 0)
  let res := glyphs.foldl (drawStringStep position) init
  let t1 := s.draw_background res.2.2 position target
  let t2 := s.draw_strikethrough res.2.2 position t1
  let t3 := s.draw_underline res.2.2 position t2
  ⟨res.1, res.2.1.path_builder, res.2.2, t3⟩

/-- `FontTextStyle::draw_whitespace` is `todo!()`: it panics unconditionally
(modelled as `none`). -/
def FontTextStyle.draw_whitespace (_s : FontTextStyle) (_width : ℕ) (_position : Point)
    (_target : EgTarget) : Option (Point × EgTarget) :=
  none

/-- e-g-core `TextMetrics` (bounding box split into corner and size). -/
structure TextMetrics where
  bounding_box_top_left : Point
  bounding_box_size : Size
  next_position : Point
deriving DecidableEq

/-- `FontTextStyle::measure_string`: same last-glyph width computation as
`measure_text` at scale `font_size` (`as u32` saturates negatives to zero);
the bounding box is `width × font_size` at `position` and the next position
advances by the width. -/
def FontTextStyle.measure_string (s : FontTextStyle) (text : List Char) (position : Point) :
    TextMetrics :=
  let scale := (s.font_size : ℚ)
  let offset : ℚ × ℚ := (0, s.font.inner.ascent scale)
  let glyphs := s.font.inner.layout text scale offset
  let width :=
    ⌈((glyphs.reverse.head?.map fun g => g.pos.1 + g.gd.h_metrics.advance_width).getD 0)⌉
  let sz : Size := ⟨width.toNat, s.font_size⟩
  ⟨position, sz, ⟨position.x + (sz.width : ℤ), position.y⟩⟩

/-- e-g-core `VerticalAlignment`. -/
inductive VerticalAlignment
  | top
  | center
  | bottom
  | baseline
deriving DecidableEq

/-- `FontTextStyle::vertical_offset`: returns the position unchanged; the
alignment argument is ignored (`_vertical_alignment`). -/
def FontTextStyle.vertical_offset (_s : FontTextStyle) (position : Point)
    (_vertical_alignment : VerticalAlignment) : Point :=
  position

/-- `FontTextStyle::line_height`. -/
def FontTextStyle.line_height (s : FontTextStyle) : ℕ :=
  s.font_size

/-! ### Helper lemmas -/

/-- Painting with a coverage that never hits leaves the buffer unchanged. -/
theorem paintList_id (cov : ℕ → Bool) (c : Rgba8) :
    ∀ (xs : List Rgba8) (n : ℕ), (∀ i, i < xs.length → cov (n + i) = false) →
      paintList cov c xs n = xs
  | [], _, _ => rfl
  | x :: xs, n, h => by
      have h0 : cov n = false := by simpa using h 0 (by simp)
      have ih := paintList_id cov c xs (n + 1) (fun i hi => by
        have h' := h (i + 1) (by simpa using Nat.succ_lt_succ hi)
        rw [show n + (i + 1) = n + 1 + i by omega] at h'
        exact h')
      simp [paintList, h0, ih]

/-- A covered in-range index holds the paint color after painting. -/
theorem paintList_getD_covered (cov : ℕ → Bool) (c dflt : Rgba8) :
    ∀ (xs : List Rgba8) (n i : ℕ), i < xs.length → cov (n + i) = true →
      (paintList cov c xs n).getD i dflt = c
  | [], _, i, hi, _ => absurd hi (by simp)
  | x :: xs, n, 0, _, hcov => by
      have h0 : cov n = true := by simpa using hcov
      simp [paintList, h0]
  | x :: xs, n, i + 1, hi, hcov => by
      have h' : cov (n + 1 + i) = true := by
        rw [show n + 1 + i = n + (i + 1) by omega]
        exact hcov
      have ih := paintList_getD_covered cov c dflt xs (n + 1) i (by simpa using hi) h'
      simpa [paintList] using ih

/-- Painting preserves the buffer length. -/
theorem paintList_length (cov : ℕ → Bool) (c : Rgba8) :
    ∀ (xs : List Rgba8) (n : ℕ), (paintList cov c xs n).length = xs.length
  | [], _ => rfl
  | _ :: xs, n => by simp [paintList, paintList_length cov c xs (n + 1)]

/-- Every glyph emitted by the layout caret recursion is the font's glyph of
one of the laid-out characters. -/
theorem layoutFrom_mem (f : RFont) (scale : ℚ) :
    ∀ (text : List Char) (caret : ℚ × ℚ) (g : PositionedGlyph),
      g ∈ f.layoutFrom scale caret text → ∃ c ∈ text, g.gd = f.glyph scale c
  | [], _, _, hg => absurd hg (by simp [RFont.layoutFrom])
  | c :: cs, caret, g, hg => by
      rw [RFont.layoutFrom] at hg
      rcases List.mem_cons.mp hg with h | h
      · exact ⟨c, by simp, by rw [h]⟩
      · obtain ⟨c', hc', hgd⟩ := layoutFrom_mem f scale cs _ g h
        exact ⟨c', by simp [hc'], hgd⟩

/-- The `draw_string` glyph loop leaves its state untouched when every glyph
lacks a pixel bounding box (each iteration hits `continue`). -/
theorem foldl_drawStringStep_skip (position : Point) :
    ∀ (gs : List PositionedGlyph) (st : Point × GlyphTracer × ℕ),
      (∀ g ∈ gs, g.pixel_bounding_box = none) →
      gs.foldl (drawStringStep position) st = st
  | [], _, _ => rfl
  | g :: gs, st, h => by
      have hg : g.pixel_bounding_box = none := h g (by simp)
      have hstep : drawStringStep position st g = st := by
        rw [drawStringStep, hg]
      rw [List.foldl_cons, hstep]
      exact foldl_drawStringStep_skip position gs st (fun g' hg' => h g' (by simp [hg']))

/-! ### Concrete inputs used by witnesses and counterexamples -/

/-- A blank 4×4 display (as built by `TinySkiaDisplay::new(4, 4)`). -/
def d4 : TinySkiaDisplay := ⟨⟨4, 4, List.replicate 16 ⟨0, 0, 0, 0⟩⟩, ⟨4, 4⟩⟩

/-- A blank 4×12 display. -/
def d412 : TinySkiaDisplay := ⟨⟨4, 12, List.replicate 48 ⟨0, 0, 0, 0⟩⟩, ⟨4, 12⟩⟩

/-- A blank 10×10 display. -/
def d10 : TinySkiaDisplay := ⟨⟨10, 10, List.replicate 100 ⟨0, 0, 0, 0⟩⟩, ⟨10, 10⟩⟩

def red : Rgb888 := ⟨255, 0, 0⟩

def blue : Rgb888 := ⟨0, 0, 255⟩

/-- The path `convert_line_path` builds for the line `(0,0) → (3,0)`. -/
def hLinePath : Path := ⟨[.moveTo 0 0, .lineTo 3 0]⟩

/-- The horizontal line `(0,0) → (3,0)` styled with only a fill color. -/
def hLineItem : Styled Line := ⟨⟨⟨0, 0⟩, ⟨3, 0⟩⟩, ⟨some red, none, 0⟩⟩

/-- A zero-derived-width rectangle `(0,0) → (0,10)` with a stroke of width 2. -/
def zeroWidthRectItem : Styled Rectangle := ⟨⟨⟨0, 0⟩, ⟨0, 10⟩⟩, ⟨none, some blue, 2⟩⟩

/-- The rectangle `(2,2) → (8,8)` with fill red, stroke blue of width 2. -/
def fillStrokeRectItem : Styled Rectangle := ⟨⟨⟨2, 2⟩, ⟨8, 8⟩⟩, ⟨some red, some blue, 2⟩⟩

/-- The display produced by drawing `fillStrokeRectItem` on `d10`: the fill
pass over the converted rect, then the stroke pass over the rect path. -/
def fillStrokeRectOut : TinySkiaDisplay :=
  TinySkiaDisplay.stroke
    { d10 with pix_map := d10.pix_map.fill_rect ⟨2, 2, 6, 6⟩ (convert_color_to_paint red) }
    (PathBuilder.from_rect ⟨2, 2, 6, 6⟩) blue 2

/-- A font whose every glyph is a whitespace glyph: advance width 4, no
bounding box, no outline. -/
def wsFont : Font :=
  ⟨⟨fun _ _ => ⟨⟨4⟩, none, []⟩, fun _ => 10⟩, 12⟩

/-- A text style over `wsFont` at size 12 with a text color only. -/
def wsStyle : FontTextStyle :=
  ⟨some red, none, .noColor, .noColor, 12, wsFont⟩

/-- A blank 4×4 text target. -/
def wsTarget : EgTarget := ⟨⟨4, 4, List.replicate 16 ⟨0, 0, 0, 0⟩⟩⟩

/-! ### Claim theorems -/

/-- C6: for every abstract color, the RGBA8 conversion is a total pure
function (it is a Lean function of the color alone) whose alpha is always
255, and the native-build `rgba` and the WASM-build `rgba` differ exactly by
swapping the r and b output channels. -/
theorem rgba_total_alpha255_and_target_swap (color : Rgb888) :
    (rgba color).a = 255 ∧ (rgbaWasm color).a = 255 ∧
    (rgba color).r = (rgbaWasm color).b ∧
    (rgba color).g = (rgbaWasm color).g ∧
    (rgba color).b = (rgbaWasm color).r :=
  ⟨rfl, rfl, rfl, rfl, rfl⟩

/-- C10: `vertical_offset` returns the input position unchanged for every
position and every vertical alignment value. -/
theorem vertical_offset_ignores_alignment (s : FontTextStyle) (position : Point)
    (alignment : VerticalAlignment) :
    s.vertical_offset position alignment = position :=
  rfl

/-- C7: for every position outside `[0,width) × [0,height)` and every color,
`draw_pixel` returns success and leaves every byte of the pixel buffer (and
the whole display) unchanged. -/
theorem draw_pixel_out_of_bounds_is_silent_noop (d : TinySkiaDisplay) (position : Point)
    (color : Rgb888)
    (hlen : d.pix_map.data.length = d.pix_map.width * d.pix_map.height)
    (hout : position.x < 0 ∨ position.y < 0 ∨ (d.pix_map.width : ℤ) ≤ position.x ∨
      (d.pix_map.height : ℤ) ≤ position.y) :
    d.draw_pixel (position, color) = .ok d := by
  have hrect : SkRect.from_xywh position.x position.y 1 1 =
      some ⟨position.x, position.y, 1, 1⟩ := by
    rw [SkRect.from_xywh, if_pos (by omega)]
  have hfill : d.pix_map.fill_rect ⟨position.x, position.y, 1, 1⟩
      (convert_color_to_paint color) = d.pix_map := by
    rw [Pixmap.fill_rect, Pixmap.paintWhere]
    have hdata : paintList
        (fun i => SkRect.covers ⟨position.x, position.y, 1, 1⟩
          ((i % d.pix_map.width : ℕ) : ℤ) ((i / d.pix_map.width : ℕ) : ℤ))
        (convert_color_to_paint color) d.pix_map.data 0 = d.pix_map.data := by
      apply paintList_id
      intro i hi
      rw [hlen] at hi
      have hw : 0 < d.pix_map.width := by
        rcases Nat.eq_zero_or_pos d.pix_map.width with h | h
        · rw [h] at hi
          omega
        · exact h
      have hpx : (i % d.pix_map.width) < d.pix_map.width := Nat.mod_lt _ hw
      have hpy : (i / d.pix_map.width) < d.pix_map.height :=
        Nat.div_lt_of_lt_mul (by omega)
      simp only [SkRect.covers, decide_eq_false_iff_not, Nat.zero_add]
      set px : ℤ := ((i % d.pix_map.width : ℕ) : ℤ) with hpx'
      set py : ℤ := ((i / d.pix_map.width : ℕ) : ℤ) with hpy'
      have hbx : 0 ≤ px ∧ px < (d.pix_map.width : ℤ) :=
        ⟨hpx' ▸ Int.natCast_nonneg _, by rw [hpx']; exact_mod_cast hpx⟩
      have hby : 0 ≤ py ∧ py < (d.pix_map.height : ℤ) :=
        ⟨hpy' ▸ Int.natCast_nonneg _, by rw [hpy']; exact_mod_cast hpy⟩
      omega
    rw [hdata]
  simp only [TinySkiaDisplay.draw_pixel, hrect, hfill]

/-- C7 witness: the position `(10, 2)` lies outside the 4×4 canvas `d4`, and
`draw_pixel` there succeeds and returns the display unchanged. -/
theorem draw_pixel_out_of_bounds_witness :
    (d4.pix_map.data.length = d4.pix_map.width * d4.pix_map.height ∧
      ((4 : ℤ) ≤ (10 : ℤ))) ∧
    d4.draw_pixel (⟨10, 2⟩, red) = .ok d4 :=
  ⟨⟨by decide, by decide⟩,
    draw_pixel_out_of_bounds_is_silent_noop d4 ⟨10, 2⟩ red (by decide)
      (by right; right; left; decide)⟩

/-- C8: with a destination buffer of exactly `width*height` pixels
(`width*height*4` bytes), `flip` copies the pixel buffer verbatim into the
destination, leaves the display (and thus the canvas's own buffer) unchanged,
and two flips with fresh equally-sized surfaces yield two byte-identical
copies. -/
theorem flip_copies_verbatim_and_preserves_canvas (d : TinySkiaDisplay)
    (surface1 surface2 : List Rgba8)
    (hlen : d.pix_map.data.length = d.pix_map.width * d.pix_map.height)
    (h1 : surface1.length = d.pix_map.width * d.pix_map.height)
    (h2 : surface2.length = d.pix_map.width * d.pix_map.height) :
    d.flip surface1 = some (d, d.pix_map.data) ∧
    d.flip surface2 = some (d, d.pix_map.data) := by
  constructor
  · rw [TinySkiaDisplay.flip, if_pos (by omega)]
  · rw [TinySkiaDisplay.flip, if_pos (by omega)]

/-- C8 witness: flipping the 4×4 display `d4` into two fresh 16-entry
surfaces yields the same verbatim copy twice and leaves `d4` unchanged. -/
theorem flip_copies_verbatim_witness :
    ((List.replicate 16 (⟨1, 2, 3, 4⟩ : Rgba8)).length =
      d4.pix_map.width * d4.pix_map.height) ∧
    d4.flip (List.replicate 16 ⟨1, 2, 3, 4⟩) = some (d4, d4.pix_map.data) ∧
    d4.flip (List.replicate 16 ⟨5, 6, 7, 8⟩) = some (d4, d4.pix_map.data) :=
  ⟨by decide,
    (flip_copies_verbatim_and_preserves_canvas d4 (List.replicate 16 ⟨1, 2, 3, 4⟩)
      (List.replicate 16 ⟨5, 6, 7, 8⟩) (by decide) (by decide) (by decide)).1,
    (flip_copies_verbatim_and_preserves_canvas d4 (List.replicate 16 ⟨1, 2, 3, 4⟩)
      (List.replicate 16 ⟨5, 6, 7, 8⟩) (by decide) (by decide) (by decide)).2⟩

/-- C3: `measure_text` and `measure_string` return as width the ceiling of the
position-plus-advance of the last glyph in layout iteration order (not a sum
over all glyphs), and measuring the empty string returns width 0. -/
theorem measure_text_uses_last_glyph (f : Font) (s : FontTextStyle) (text : List Char)
    (size : ℚ) (position : Point) :
    (f.measure_text text size).1 =
      (match (f.inner.layout text size (0, f.inner.ascent size)).getLast? with
       | none => 0
       | some g => ⌈g.pos.1 + g.gd.h_metrics.advance_width⌉) ∧
    (f.measure_text [] size).1 = 0 ∧
    (s.measure_string text position).bounding_box_size.width =
      (match (s.font.inner.layout text (s.font_size : ℚ)
          (0, s.font.inner.ascent (s.font_size : ℚ))).getLast? with
       | none => 0
       | some g => (⌈g.pos.1 + g.gd.h_metrics.advance_width⌉).toNat) ∧
    (s.measure_string [] position).bounding_box_size.width = 0 := by
  refine ⟨?_, ?_, ?_, ?_⟩
  · cases hl : (f.inner.layout text size (0, f.inner.ascent size)).getLast? with
    | none => simp [Font.measure_text, List.head?_reverse, hl]
    | some g => simp [Font.measure_text, List.head?_reverse, hl]
  · simp [Font.measure_text, RFont.layout, RFont.layoutFrom]
  · cases hl : (s.font.inner.layout text (s.font_size : ℚ)
        (0, s.font.inner.ascent (s.font_size : ℚ))).getLast? with
    | none => simp [FontTextStyle.measure_string, List.head?_reverse, hl]
    | some g => simp [FontTextStyle.measure_string, List.head?_reverse, hl]
  · simp [FontTextStyle.measure_string, RFont.layout, RFont.layoutFrom]

/-- C1 amended: the `fill`/`stroke` primitives themselves report no errors
(the rasterizer's status is discarded); the only failures the dispatch
functions report come from path/rect construction: `draw_line` always
succeeds, `draw_rectangle` succeeds exactly when the derived width and height
are non-negative, and `draw_circle` succeeds exactly when the radius is
non-zero. -/
theorem fill_stroke_errors_from_construction_only :
    (∀ (d : TinySkiaDisplay) (item : Styled Line), (d.draw_line item).isOk = true) ∧
    (∀ (d : TinySkiaDisplay) (item : Styled Rectangle),
      (d.draw_rectangle item).isOk = true ↔
        (0 ≤ item.primitive.bottom_right.x - item.primitive.top_left.x ∧
         0 ≤ item.primitive.bottom_right.y - item.primitive.top_left.y)) ∧
    (∀ (d : TinySkiaDisplay) (item : Styled Circle),
      (d.draw_circle item).isOk = true ↔ item.primitive.radius ≠ 0) := by
  refine ⟨fun d item => rfl, fun d item => ?_, fun d item => ?_⟩
  · by_cases hc : 0 ≤ item.primitive.bottom_right.x - item.primitive.top_left.x ∧
        0 ≤ item.primitive.bottom_right.y - item.primitive.top_left.y
    · simp only [TinySkiaDisplay.draw_rectangle, convert_rect, SkRect.from_xywh,
        convert_rect_path, if_pos hc]
      exact iff_of_true rfl hc
    · simp only [TinySkiaDisplay.draw_rectangle, convert_rect, SkRect.from_xywh,
        if_neg hc]
      exact iff_of_false (by decide) hc
  · by_cases hr : item.primitive.radius = 0
    · have h0 : ((item.primitive.radius : ℚ) ≤ 0) := by
        rw [hr]
        norm_num
      simp only [TinySkiaDisplay.draw_circle, convert_circle_path, convert_circle,
        PathBuilder.from_circle, if_pos h0]
      exact iff_of_false (by decide) (by simp [hr])
    · have hpos : ¬((item.primitive.radius : ℚ) ≤ 0) :=
        not_le.mpr (by exact_mod_cast Nat.pos_of_ne_zero hr)
      simp only [TinySkiaDisplay.draw_circle, convert_circle_path, convert_circle,
        PathBuilder.from_circle, if_neg hpos]
      exact iff_of_true rfl hr

/-- C1 counterexample: filling the line path `(0,0) → (3,0)` (a degenerate
zero-area region) makes the modelled rasterizer report `none` — nothing to
fill, i.e. the backing path is geometry the rasterizer rejects — yet
`draw_line` on that very input succeeds: no `PathError` reaches the caller;
the rejection is silently swallowed inside `fill`. -/
theorem fill_rasterizer_rejection_swallowed :
    (d4.pix_map.fill_path hLinePath (convert_color_to_paint red)).2 = none ∧
    (d4.draw_line hLineItem).isOk = true := by
  exact ⟨by with_unfolding_all decide, by with_unfolding_all decide⟩

/-- C4: for each of line, rectangle and circle with both a fill and a stroke
color, the dispatch applies the fill pass first and the stroke pass second;
consequently any pixel covered by the stroke pass holds the stroke color in
the final buffer (the stroke color wins at overlapping pixels). -/
theorem fill_pass_precedes_stroke_pass :
    (∀ (d : TinySkiaDisplay) (item : Styled Line) (path : Path) (cf cs : Rgb888),
      item.style.fill_color = some cf → item.style.stroke_color = some cs →
      convert_line_path item.primitive = .ok path →
      d.draw_line item = .ok ((d.fill path cf).stroke path cs item.style.stroke_width)) ∧
    (∀ (d : TinySkiaDisplay) (item : Styled Rectangle) (r : SkRect) (cf cs : Rgb888),
      item.style.fill_color = some cf → item.style.stroke_color = some cs →
      convert_rect item.primitive = some r →
      d.draw_rectangle item = .ok
        (TinySkiaDisplay.stroke
          { d with pix_map := d.pix_map.fill_rect r (convert_color_to_paint cf) }
          (PathBuilder.from_rect r) cs item.style.stroke_width)) ∧
    (∀ (d : TinySkiaDisplay) (item : Styled Circle) (path : Path) (cf cs : Rgb888),
      item.style.fill_color = some cf → item.style.stroke_color = some cs →
      convert_circle_path item.primitive = .ok path →
      d.draw_circle item = .ok ((d.fill path cf).stroke path cs item.style.stroke_width)) ∧
    (∀ (d : TinySkiaDisplay) (path : Path) (c : Rgb888) (w i : ℕ),
      0 < w → i < d.pix_map.data.length →
      path.strokeCovers (w : ℚ) ((i % d.pix_map.width : ℕ) : ℤ)
        ((i / d.pix_map.width : ℕ) : ℤ) = true →
      (d.stroke path c w).pix_map.data.getD i ⟨0, 0, 0, 0⟩ = convert_color_to_paint c) := by
  refine ⟨?_, ?_, ?_, ?_⟩
  · intro d item path cf cs hf hs hp
    simp only [TinySkiaDisplay.draw_line, hp, hf, hs]
  · intro d item r cf cs hf hs hr
    simp only [TinySkiaDisplay.draw_rectangle, hr, convert_rect_path, hf, hs]
  · intro d item path cf cs hf hs hp
    simp only [TinySkiaDisplay.draw_circle, hp, hf, hs]
  · intro d path c w i hw hi hcov
    rw [TinySkiaDisplay.stroke, Pixmap.stroke_path,
      if_neg (not_le.mpr (by exact_mod_cast hw))]
    exact paintList_getD_covered _ _ _ d.pix_map.data 0 i hi
      (by rw [Nat.zero_add]; exact hcov)

/-- C4 witness: the rectangle `(2,2)-(8,8)` with fill red and stroke blue of
width 2 on the blank 10×10 display: the result is the stroke applied after
the fill, and at pixel `(2, 5)` (buffer index 52), which lies on the left
edge where fill and stroke overlap, the final color is the stroke paint. -/
theorem fill_before_stroke_witness :
    fillStrokeRectItem.style.fill_color = some red ∧
    d10.draw_rectangle fillStrokeRectItem = .ok fillStrokeRectOut ∧
    fillStrokeRectOut.pix_map.data.getD 52 ⟨0, 0, 0, 0⟩ = convert_color_to_paint blue := by
  refine ⟨rfl, ?_, ?_⟩
  · exact fill_pass_precedes_stroke_pass.2.1 d10 fillStrokeRectItem ⟨2, 2, 6, 6⟩ red blue
      rfl rfl (by with_unfolding_all decide)
  · exact fill_pass_precedes_stroke_pass.2.2.2
      { d10 with pix_map := d10.pix_map.fill_rect ⟨2, 2, 6, 6⟩ (convert_color_to_paint red) }
      (PathBuilder.from_rect ⟨2, 2, 6, 6⟩) blue 2 52 (by with_unfolding_all decide)
      (by with_unfolding_all decide) (by with_unfolding_all decide)

/-- C5 amended: a rectangle whose derived width or height is zero (and whose
derived geometry passes conversion) is drawn without error, and its fill pass
paints nothing; a rectangle whose derived width or height is negative is
rejected with an error.  Dispatch has no zero-size special case, however: the
stroke pass still runs on the degenerate rect path and can paint pixels. -/
theorem zero_size_rectangle_fill_dispatch :
    (∀ (d : TinySkiaDisplay) (item : Styled Rectangle) (r : SkRect) (paint : Rgba8),
      (item.primitive.bottom_right.x - item.primitive.top_left.x = 0 ∨
       item.primitive.bottom_right.y - item.primitive.top_left.y = 0) →
      convert_rect item.primitive = some r →
      (d.draw_rectangle item).isOk = true ∧ d.pix_map.fill_rect r paint = d.pix_map) ∧
    (∀ (d : TinySkiaDisplay) (item : Styled Rectangle),
      (item.primitive.bottom_right.x - item.primitive.top_left.x < 0 ∨
       item.primitive.bottom_right.y - item.primitive.top_left.y < 0) →
      (d.draw_rectangle item).isOk = false) := by
  constructor
  · intro d item r paint hzero hr
    constructor
    · simp only [TinySkiaDisplay.draw_rectangle, hr, convert_rect_path]
      cases item.style.fill_color <;> cases item.style.stroke_color <;> rfl
    · rw [convert_rect, SkRect.from_xywh] at hr
      split at hr
      · cases hr
        rw [Pixmap.fill_rect, Pixmap.paintWhere]
        have hdata := paintList_id
          (fun i => SkRect.covers
            ⟨item.primitive.top_left.x, item.primitive.top_left.y,
              item.primitive.bottom_right.x - item.primitive.top_left.x,
              item.primitive.bottom_right.y - item.primitive.top_left.y⟩
            ((i % d.pix_map.width : ℕ) : ℤ) ((i / d.pix_map.width : ℕ) : ℤ))
          paint d.pix_map.data 0
          (fun i _ => by
            simp only [SkRect.covers, decide_eq_false_iff_not]
            omega)
        rw [hdata]
      · cases hr
  · intro d item hneg
    have hc : ¬(0 ≤ item.primitive.bottom_right.x - item.primitive.top_left.x ∧
        0 ≤ item.primitive.bottom_right.y - item.primitive.top_left.y) := by omega
    simp only [TinySkiaDisplay.draw_rectangle, convert_rect, SkRect.from_xywh, if_neg hc]
    rfl

/-- C5 counterexample: the rectangle `(0,0) → (0,10)` has derived width 0; per
the claim, drawing it must succeed with the pixel buffer unchanged.  With a
stroke color set the call does succeed, but the buffer is NOT unchanged: the
degenerate rect path is still stroked, and pixel `(0, 5)` (buffer index 20)
ends up holding the stroke paint. -/
theorem zero_width_rectangle_not_noop :
    (d412.draw_rectangle zeroWidthRectItem).isOk = true ∧
    (d412.draw_rectangle zeroWidthRectItem).toOption ≠ some d412 ∧
    ((d412.draw_rectangle zeroWidthRectItem).toOption.map
      (fun r => r.pix_map.data.getD 20 ⟨0, 0, 0, 0⟩)) =
        some (convert_color_to_paint blue) := by
  exact ⟨by with_unfolding_all decide, by with_unfolding_all decide,
    by with_unfolding_all decide⟩

/-- C5 witness: the zero-width rectangle `(1,1) → (1,6)` passes conversion,
draws without error and its fill pass paints nothing; the rectangle
`(0,0) → (-1,5)` has negative derived width and is rejected with an error. -/
theorem zero_size_rectangle_fill_dispatch_witness :
    ((d412.draw_rectangle ⟨⟨⟨1, 1⟩, ⟨1, 6⟩⟩, ⟨some red, none, 1⟩⟩).isOk = true ∧
      d412.pix_map.fill_rect ⟨1, 1, 0, 5⟩ (convert_color_to_paint red) = d412.pix_map) ∧
    (d412.draw_rectangle ⟨⟨⟨0, 0⟩, ⟨-1, 5⟩⟩, ⟨some red, none, 1⟩⟩).isOk = false :=
  ⟨zero_size_rectangle_fill_dispatch.1 d412 ⟨⟨⟨1, 1⟩, ⟨1, 6⟩⟩, ⟨some red, none, 1⟩⟩
      ⟨1, 1, 0, 5⟩ (convert_color_to_paint red) (by decide) (by with_unfolding_all decide),
    zero_size_rectangle_fill_dispatch.2 d412 ⟨⟨⟨0, 0⟩, ⟨-1, 5⟩⟩, ⟨some red, none, 1⟩⟩
      (by decide)⟩

/-- C2 amended: glyphs without a pixel bounding box are skipped entirely by
`draw_string`: they contribute zero path segments AND zero advance to the
accumulated laid-out width.  In particular a string of only whitespace glyphs
produces an empty path builder and width 0 (not the sum of the whitespace
advance widths). -/
theorem draw_string_skips_whitespace_entirely (s : FontTextStyle) (text : List Char)
    (position : Point) (target : EgTarget)
    (hws : ∀ c ∈ text, (s.font.inner.glyph (s.font_size : ℚ) c).bbox_min = none) :
    (s.draw_string text position target).path_builder = [] ∧
    (s.draw_string text position target).width = 0 := by
  have hall : ∀ g ∈ s.font.inner.layout text (s.font_size : ℚ)
      (0, s.font.inner.ascent (s.font_size : ℚ)), g.pixel_bounding_box = none := by
    intro g hg
    obtain ⟨c, hc, hgd⟩ := layoutFrom_mem _ _ _ _ g hg
    rw [PositionedGlyph.pixel_bounding_box, hgd, hws c hc]
    rfl
  have hfold := foldl_drawStringStep_skip position
    (s.font.inner.layout text (s.font_size : ℚ)
      (0, s.font.inner.ascent (s.font_size : ℚ)))
    (position, ⟨[], (0, 0)⟩, 0) hall
  refine ⟨?_, ?_⟩ <;> simp only [FontTextStyle.draw_string, hfold]

/-- C2 witness: the whitespace-only string `" "` over a font whose glyphs all
lack bounding boxes yields an empty path builder and width 0. -/
theorem draw_string_whitespace_witness :
    (wsStyle.font.inner.glyph (12 : ℚ) ' ').bbox_min = none ∧
    (wsStyle.draw_string [' '] ⟨0, 0⟩ wsTarget).path_builder = [] ∧
    (wsStyle.draw_string [' '] ⟨0, 0⟩ wsTarget).width = 0 :=
  ⟨rfl,
    (draw_string_skips_whitespace_entirely wsStyle [' '] ⟨0, 0⟩ wsTarget
      (fun _ _ => rfl)).1,
    (draw_string_skips_whitespace_entirely wsStyle [' '] ⟨0, 0⟩ wsTarget
      (fun _ _ => rfl)).2⟩

/-- C2 counterexample: the whitespace glyph of `wsFont` has advance width 4,
so by the claim drawing the string `" "` must advance the laid-out width by 4;
the code's `continue` skips the width accumulation for glyphs without a pixel
bounding box, and the width is 0, not 4. -/
theorem draw_string_whitespace_width_counterexample :
    (wsStyle.font.inner.glyph (12 : ℚ) ' ').h_metrics.advance_width = 4 ∧
    (wsStyle.draw_string [' '] ⟨0, 0⟩ wsTarget).width = 0 ∧
    (wsStyle.draw_string [' '] ⟨0, 0⟩ wsTarget).width ≠ 4 := by
  exact ⟨rfl, by with_unfolding_all decide, by with_unfolding_all decide⟩

/-- C9 amended: the public operations are total except for the two modelled
panic sites: `draw_whitespace` unconditionally panics (`todo!()`), and `flip`
panics exactly when the supplied surface length differs from the pixel buffer
length (and completes otherwise).  All other drawing operations are total
functions in the embedding — no construct in their bodies can abort. -/
theorem public_operations_abort_behavior :
    (∀ (s : FontTextStyle) (width : ℕ) (position : Point) (target : EgTarget),
      s.draw_whitespace width position target = none) ∧
    (∀ (d : TinySkiaDisplay) (surface : List Rgba8),
      (d.flip surface).isSome = true ↔ surface.length = d.pix_map.data.length) := by
  constructor
  · intro s width position target
    rfl
  · intro d surface
    rw [TinySkiaDisplay.flip]
    by_cases h : surface.length = d.pix_map.data.length
    · simp [h]
    · simp [h]

/-- C9 counterexample: `draw_whitespace` at a concrete input neither completes
nor returns an error value — it panics (`todo!()`), modelled as `none` —
contradicting the claim that no public drawing operation escalates to a
process abort. -/
theorem draw_whitespace_panics :
    wsStyle.draw_whitespace 3 ⟨0, 0⟩ wsTarget = none :=
  rfl

end Tsd
